import Mathlib

/-!
Verification development for the hrf-newsletter batch media upload pipeline.

The Python sources `scripts/image_utils.py`, `scripts/batch_image_upload.py`
and `scripts/batch_template_upload.py` are shallowly embedded below.  Pure
control flow (size checks, the compression ladder, deduplication, retry
loops, summary generation, HTML validation) is translated directly; the
genuinely external effects (the PIL JPEG encoder's output size, the
filesystem, the Mailchimp network API, wall-clock timestamps) are supplied
as explicit oracle parameters, so every definition stays executable and the
embedded control flow is exactly the source's.
-/

namespace HRF

/-! ## image_utils.py -/

/-- MAX_FILE_SIZE_MB = 1.0, expressed in bytes.  The source compares
`os.path.getsize(p) / (1024 * 1024) <= 1.0`, which for an integer byte
count is exactly `bytes <= 1048576`. -/
def MAX_FILE_SIZE_BYTES : Nat := 1048576

/-- SAFETY_MARGIN_MB = 0.95, expressed in bytes.  The source compares
`bytes / (1024 * 1024) <= 0.95`; since the byte count is an integer and
consecutive grid points of `bytes / 2^20` are 2^-20 apart while the
double closest to 0.95 differs from 0.95 by about 5e-17, this is exactly
`bytes <= 996147` (0.95 * 1048576 = 996147.2). -/
def SAFETY_MARGIN_BYTES : Nat := 996147

/-- One entry of COMPRESSION_STRATEGIES: a (quality, max_width, name) record. -/
structure Strategy where
  quality : Nat
  max_width : Nat
  name : String
deriving Repr, DecidableEq

/-- COMPRESSION_STRATEGIES from image_utils.py. -/
def COMPRESSION_STRATEGIES : List Strategy :=
  [⟨85, 1600, "conservative"⟩,
   ⟨75, 1200, "moderate"⟩,
   ⟨65, 800, "aggressive"⟩,
   ⟨55, 600, "very_aggressive"⟩,
   ⟨45, 400, "last_resort"⟩]

/-- The in-memory PIL image: width, height and mode (e.g. "RGB", "RGBA", "P"). -/
structure PilImage where
  width : Nat
  height : Nat
  mode : String
deriving Repr, DecidableEq

/-- Result of `Image.open`: either a decoded image, the dedicated
`UnidentifiedImageError`, or any other exception. -/
inductive OpenResult where
  | ok (img : PilImage)
  | unidentified
  | otherExc
deriving Repr, DecidableEq

/-- The file at `image_path` as the compression ladder sees it: its current
byte size and what `Image.open` yields on it. -/
structure ImgFile where
  size : Nat
  opened : OpenResult
deriving Repr, DecidableEq

/-- The JPEG encoder oracle: the byte size `img.save(..., quality=q)`
produces for a given in-memory image at a given quality.  The encoder's
output size is the one thing the source does not compute itself. -/
def SaveSize := PilImage → Nat → Nat

/-- Exceptions escaping the `try` block of `ensure_under_1mb` before the
outer handlers translate them. -/
inductive InnerExc where
  | unidentifiedImageError
  | criticalImageError
  | otherException
deriving Repr, DecidableEq

/-- The exception types a caller of image_utils can observe. -/
inductive ImgExc where
  | imageCompressionError
  | criticalImageError
deriving Repr, DecidableEq

/-- The resize step: `if img.width > strategy.max_width`, shrink to the
strategy width, scaling the height by the same ratio (the float
`int(height * ratio)` is modelled with Nat floor division; no claim
depends on the exact rounded height). -/
def resizeStep (img : PilImage) (maxWidth : Nat) : PilImage :=
  if img.width > maxWidth then
    { width := maxWidth, height := img.height * maxWidth / img.width, mode := img.mode }
  else img

/-- The mode conversion step: `if img.mode in ('RGBA', 'P'): img.convert('RGB')`. -/
def convertStep (img : PilImage) : PilImage :=
  if img.mode = "RGBA" ∨ img.mode = "P" then
    { img with mode := "RGB" }
  else img

/-- The body of the `for i, strategy in enumerate(COMPRESSION_STRATEGIES)`
loop in `ensure_under_1mb`: return as soon as the current size is within
the safety margin, otherwise open, resize, convert and re-save the file,
then continue with the next strategy. -/
def ladderLoop (saveSize : SaveSize) : List Strategy → ImgFile → Except InnerExc ImgFile
  | [], f => Except.ok f
  | s :: rest, f =>
    if f.size ≤ SAFETY_MARGIN_BYTES then
      Except.ok f
    else
      match f.opened with
      | OpenResult.unidentified => Except.error InnerExc.unidentifiedImageError
      | OpenResult.otherExc => Except.error InnerExc.otherException
      | OpenResult.ok img =>
        let img1 := resizeStep img s.max_width
        let img2 := convertStep img1
        let f2 : ImgFile := { size := saveSize img2 s.quality, opened := OpenResult.ok img2 }
        ladderLoop saveSize rest f2

/-- The full `try` block of `ensure_under_1mb`: run the ladder, then the
final check that raises `CriticalImageError` when the exhausted ladder
still leaves the file above the hard limit. -/
def ensureInner (saveSize : SaveSize) (f : ImgFile) : Except InnerExc ImgFile :=
  match ladderLoop saveSize COMPRESSION_STRATEGIES f with
  | Except.error e => Except.error e
  | Except.ok f2 =>
    if f2.size > MAX_FILE_SIZE_BYTES then Except.error InnerExc.criticalImageError
    else Except.ok f2

/-- ensure_under_1mb.  `isfile` is the `os.path.isfile(image_path)` test;
the file itself is `f`.  The outer handlers translate every inner
exception: `except UnidentifiedImageError` re-raises as
`ImageCompressionError`, and the following `except Exception` catches
everything else — including the `CriticalImageError` raised by the final
size check inside the `try` — and re-raises it as `ImageCompressionError`. -/
def ensure_under_1mb (saveSize : SaveSize) (isfile : Bool) (f : ImgFile) :
    Except ImgExc ImgFile :=
  if !isfile then Except.error ImgExc.imageCompressionError
  else if f.size ≤ SAFETY_MARGIN_BYTES then Except.ok f
  else
    match ensureInner saveSize f with
    | Except.ok f2 => Except.ok f2
    | Except.error InnerExc.unidentifiedImageError =>
        Except.error ImgExc.imageCompressionError
    | Except.error InnerExc.criticalImageError =>
        Except.error ImgExc.imageCompressionError
    | Except.error InnerExc.otherException =>
        Except.error ImgExc.imageCompressionError

/-- validate_mailchimp_size_limit: raises ImageCompressionError for a
missing file, CriticalImageError above the hard limit, else returns True. -/
def validate_mailchimp_size_limit (isfile : Bool) (sizeBytes : Nat) :
    Except ImgExc Bool :=
  if !isfile then Except.error ImgExc.imageCompressionError
  else if sizeBytes > MAX_FILE_SIZE_BYTES then Except.error ImgExc.criticalImageError
  else Except.ok true

/-! ## batch_image_upload.py -/

/-- What a call to `ensure_under_1mb` looks like from its caller in
`_optimize_and_deduplicate`: it either returns the optimized path or
raises `CriticalImageError` (handled by the dedicated `except` clause) or
some other exception (handled by the generic `except Exception`). -/
inductive CompressExc where
  | critical (msg : String)
  | otherExc (msg : String)
deriving Repr, DecidableEq

/-- The external world the uploader interacts with: the filesystem
(existence, md5 content hash, byte size of the file at a path), the
compression engine, and the Mailchimp upload endpoint.  The upload oracle
is indexed by the 0-based attempt number so that per-attempt transient
failures can be expressed. -/
structure BatchEnv where
  exists_ : String → Bool
  hash : String → String
  size : String → Nat
  compress : String → Except CompressExc String
  upload : String → Nat → Except String String

/-- ImageAsset dataclass (content_hash is filled at construction, as in
`__post_init__`). -/
structure ImageAsset where
  source_path : String
  usage_context : String := "inline"
  priority : String := "normal"
  content_hash : String := ""
  original_reference : Option String := none
  optimized_path : Option String := none
  cached_url : Option String := none
deriving Repr, DecidableEq

/-- UploadResult dataclass.  The wall-clock `upload_time_seconds` field is
not modelled; `file_size_mb` is kept in bytes. -/
structure UploadResult where
  image_asset : ImageAsset
  hosted_url : Option String := none
  success : Bool := false
  error : Option String := none
  from_cache : Bool := false
  skipped : Bool := false
  file_size_bytes : Nat := 0
deriving Repr, DecidableEq

/-- BatchUploadSummary dataclass (again without the wall-clock time field;
`total_size_mb` is kept in bytes). -/
structure BatchUploadSummary where
  total_images : Nat := 0
  successful_uploads : Nat := 0
  cached_hits : Nat := 0
  failed_uploads : Nat := 0
  skipped_images : Nat := 0
  total_size_bytes : Nat := 0
  url_mappings : List (String × String) := []
  errors : List String := []
deriving Repr, DecidableEq

/-- Mutable state threaded through one `process_newsletter_images` run: the
content cache (memory and disk always updated together in the source, so
one map suffices), plus observation logs of the network upload calls made
and the backoff sleeps performed. -/
structure UpState where
  cache : List (String × String)
  calls : List String := []
  sleeps : List Nat := []
deriving Repr, DecidableEq

/-- Python dict assignment `m[k] = v`: overwrite in place if the key is
present, else append. -/
def dictUpsert (m : List (String × String)) (k v : String) : List (String × String) :=
  if (m.lookup k).isSome then m.map (fun p => if p.1 = k then (k, v) else p)
  else m ++ [(k, v)]

/-- Dict lookup with default, `m.get(k, d)`. -/
def lookupD (m : List (String × String)) (k d : String) : String :=
  (m.lookup k).getD d

/-- Characters after the last path separator. -/
def bnGo : List Char → List Char → List Char
  | cur, [] => cur
  | cur, c :: rest => if c = '/' then bnGo [] rest else bnGo (cur ++ [c]) rest

/-- os.path.basename (POSIX): the part of the path after its last slash. -/
def basename (s : String) : String := String.mk (bnGo [] s.data)

/-- The priority_order dict lookup `{'critical': 0, 'important': 1,
'normal': 2, 'optional': 3}.get(x.priority, 2)`. -/
def priorityOrder (p : String) : Nat :=
  if p = "critical" then 0
  else if p = "important" then 1
  else if p = "normal" then 2
  else if p = "optional" then 3
  else 2

/-- Stable insertion of `x` into an already-sorted list: `x` goes before
the first element whose key is not smaller, so equal-key elements keep
their original relative order, as Python's stable `list.sort` does. -/
def stableInsert (key : ImageAsset → Nat) (x : ImageAsset) :
    List ImageAsset → List ImageAsset
  | [] => [x]
  | y :: ys => if key y < key x then y :: stableInsert key x ys else x :: y :: ys

/-- Stable sort by key, modelling `image_assets.sort(key=...)`. -/
def stableSortByKey (key : ImageAsset → Nat) : List ImageAsset → List ImageAsset
  | [] => []
  | x :: xs => stableInsert key x (stableSortByKey key xs)

/-- The `for asset in image_assets` loop of `_optimize_and_deduplicate`:
drop hash duplicates, short-circuit cache hits, compress the rest; a
`CriticalImageError` aborts the whole batch for a critical-priority asset
(`raise e`) and silently drops the asset otherwise; any other exception
also drops the asset. -/
def dedupLoop (env : BatchEnv) (cache : List (String × String)) :
    List ImageAsset → List String → Except String (List ImageAsset)
  | [], _ => Except.ok []
  | a :: rest, seen =>
    if a.content_hash ∈ seen then dedupLoop env cache rest seen
    else
      let seen2 := a.content_hash :: seen
      match cache.lookup a.content_hash with
      | some url =>
        match dedupLoop env cache rest seen2 with
        | Except.error e => Except.error e
        | Except.ok tail => Except.ok ({ a with cached_url := some url } :: tail)
      | none =>
        match env.compress a.source_path with
        | Except.ok p =>
          match dedupLoop env cache rest seen2 with
          | Except.error e => Except.error e
          | Except.ok tail => Except.ok ({ a with optimized_path := some p } :: tail)
        | Except.error (CompressExc.critical m) =>
          if a.priority = "critical" then Except.error m
          else dedupLoop env cache rest seen2
        | Except.error (CompressExc.otherExc _) => dedupLoop env cache rest seen2

/-- _optimize_and_deduplicate: sort by priority (critical first, stable),
then run the deduplication loop with an empty seen-set. -/
def _optimize_and_deduplicate (env : BatchEnv) (cache : List (String × String))
    (assets : List ImageAsset) : Except String (List ImageAsset) :=
  dedupLoop env cache (stableSortByKey (fun a => priorityOrder a.priority) assets) []

/-- The string `str(e)` recorded when the pre-upload size validation
raises inside the retry loop. -/
def imgExcMsg : ImgExc → String
  | ImgExc.imageCompressionError => "ImageCompressionError"
  | ImgExc.criticalImageError => "CriticalImageError"

/-- One iteration of the `for attempt in range(self.max_retries)` loop in
`_upload_with_retry`, with `fuel = max_retries - attempt` as the
structural recursion measure.  The try-body validates the size of
`optimized_path or source_path`, performs the upload call (recorded in
`calls`), writes the fingerprint/URL pair into the cache before
returning, and builds the success result; any exception either sleeps
`2 ** attempt` and retries, or — on the last attempt — returns the
failed result.  `none` is the `return None` fall-through that Python
reaches only when `max_retries == 0`. -/
def retryGo (env : BatchEnv) (max_retries : Nat) (a : ImageAsset) :
    Nat → UpState → Nat → Option UploadResult × UpState
  | _, st, 0 => (none, st)
  | attempt, st, fuel + 1 =>
    let image_path := a.optimized_path.getD a.source_path
    let failWith : String → UpState → Option UploadResult × UpState :=
      fun msg st2 =>
        if attempt < max_retries - 1 then
          retryGo env max_retries a (attempt + 1)
            { st2 with sleeps := st2.sleeps ++ [2 ^ attempt] } fuel
        else
          (some { image_asset := a, success := false, error := some msg }, st2)
    match validate_mailchimp_size_limit true (env.size image_path) with
    | Except.error e => failWith (imgExcMsg e) st
    | Except.ok _ =>
      let st2 := { st with calls := st.calls ++ [image_path] }
      match env.upload image_path attempt with
      | Except.ok hosted_url =>
        let st3 := { st2 with cache := dictUpsert st2.cache a.content_hash hosted_url }
        (some { image_asset := a, hosted_url := some hosted_url, success := true,
                file_size_bytes := env.size image_path }, st3)
      | Except.error msg => failWith msg st2

/-- _upload_with_retry: run the retry loop from attempt 0. -/
def _upload_with_retry (env : BatchEnv) (max_retries : Nat) (a : ImageAsset)
    (st : UpState) : Option UploadResult × UpState :=
  retryGo env max_retries a 0 st max_retries

/-- The task half of `_batch_upload_with_progress`: the non-cached assets
are uploaded and their results collected in task-creation order (which is
what `asyncio.gather` returns regardless of completion order). -/
def uploadFold (env : BatchEnv) (max_retries : Nat) :
    List ImageAsset → UpState → List UploadResult × UpState
  | [], st => ([], st)
  | a :: rest, st =>
    let ur := _upload_with_retry env max_retries a st
    let rest2 := uploadFold env max_retries rest ur.2
    match ur.1 with
    | some r => (r :: rest2.1, rest2.2)
    | none => rest2

/-- _batch_upload_with_progress: cached assets turn into immediate
`from_cache=True` success results (appended first, in asset order); the
rest go through the retry upload, their results following in task order. -/
def _batch_upload_with_progress (env : BatchEnv) (max_retries : Nat)
    (optimized_assets : List ImageAsset) (st : UpState) :
    List UploadResult × UpState :=
  let cachedResults := (optimized_assets.filter (fun a => a.cached_url.isSome)).map
    (fun a => ({ image_asset := a, hosted_url := a.cached_url, success := true,
                 from_cache := true } : UploadResult))
  let ur :=
    uploadFold env max_retries (optimized_assets.filter (fun a => !a.cached_url.isSome)) st
  (cachedResults ++ ur.1, ur.2)

/-- The per-result body of the `for result in upload_results` loop of
`_generate_summary`. -/
def summaryStep (s : BatchUploadSummary) (r : UploadResult) : BatchUploadSummary :=
  if r.success then
    let s1 := if r.from_cache then { s with cached_hits := s.cached_hits + 1 }
              else { s with successful_uploads := s.successful_uploads + 1 }
    let s2 := match r.hosted_url with
      | some url =>
        let m1 := dictUpsert s1.url_mappings r.image_asset.source_path url
        let m2 := dictUpsert m1 (r.image_asset.original_reference.getD r.image_asset.source_path) url
        { s1 with url_mappings := m2 }
      | none => s1
    { s2 with total_size_bytes := s2.total_size_bytes + r.file_size_bytes }
  else if r.skipped then
    { s with skipped_images := s.skipped_images + 1 }
  else
    let s1 := { s with failed_uploads := s.failed_uploads + 1 }
    match r.error with
    | some msg =>
      if msg ≠ "" then
        { s1 with errors := s1.errors ++ [basename r.image_asset.source_path ++ ": " ++ msg] }
      else s1
    | none => s1

/-- _generate_summary: start from `total_images = len(upload_results)` and
fold the classification loop over the results. -/
def _generate_summary (upload_results : List UploadResult) : BatchUploadSummary :=
  upload_results.foldl summaryStep { total_images := upload_results.length }

/-- Everything `process_newsletter_images` produces: the returned summary,
plus (for stating properties) the internal result list and the final
threaded state. -/
structure ProcOut where
  summary : BatchUploadSummary
  results : List UploadResult
  state : UpState
deriving Repr, DecidableEq

/-- Phase 1 of `process_newsletter_images`: build an ImageAsset for each
existing path (usage context defaulting to 'inline', priority to
'normal', the relative-path mapping becoming `original_reference`), and
drop missing paths with a warning. -/
def mkAsset (env : BatchEnv) (contexts priorities relmaps : List (String × String))
    (p : String) : ImageAsset :=
  { source_path := p,
    usage_context := lookupD contexts p "inline",
    priority := lookupD priorities p "normal",
    content_hash := env.hash p,
    original_reference := relmaps.lookup p }

/-- The `for path in image_paths` loop of phase 1. -/
def mkAssets (env : BatchEnv) (contexts priorities relmaps : List (String × String)) :
    List String → List ImageAsset
  | [] => []
  | p :: rest =>
    if env.exists_ p then
      mkAsset env contexts priorities relmaps p :: mkAssets env contexts priorities relmaps rest
    else mkAssets env contexts priorities relmaps rest

/-- process_newsletter_images: phase 1 builds assets (returning an empty
summary if none exist), phase 2 optimizes and deduplicates (a critical
compression failure on a critical-priority asset propagates out of the
whole call), phase 3 uploads, phase 4 summarizes. -/
def process_newsletter_images (env : BatchEnv) (max_retries : Nat)
    (image_paths : List String)
    (usage_contexts priorities relative_path_mappings : List (String × String))
    (cache0 : List (String × String)) : Except String ProcOut :=
  let image_assets := mkAssets env usage_contexts priorities relative_path_mappings image_paths
  if image_assets.isEmpty then
    Except.ok { summary := {}, results := [], state := { cache := cache0 } }
  else
    match _optimize_and_deduplicate env cache0 image_assets with
    | Except.error e => Except.error e
    | Except.ok optimized_assets =>
      let bres :=
        _batch_upload_with_progress env max_retries optimized_assets { cache := cache0 }
      Except.ok { summary := _generate_summary bres.1,
                  results := bres.1, state := bres.2 }

/-! ## batch_template_upload.py -/

/-- What `upload_template_to_mailchimp` yields to its caller: a response
dict (whose `.get('id')` may be absent), a `MailchimpUploadError`, or any
other exception. -/
inductive TplResponse where
  | ok (templateId : Option String)
  | mailchimpError (msg : String)
  | otherError (msg : String)
deriving Repr, DecidableEq

/-- The external world of the template uploader: the remote template API
(keyed by template name) and the `datetime.now()` timestamp observed when
naming the i-th document of the run. -/
structure TplEnv where
  upload : String → TplResponse
  timestamp : Nat → String

/-- TemplateUploadResult dataclass (wall-clock upload time not modelled). -/
structure TemplateUploadResult where
  template_name : String
  success : Bool
  template_id : Option String := none
  error_message : Option String := none
  html_size_bytes : Nat := 0
deriving Repr, DecidableEq

/-- The record stored in the template bookkeeping cache (the html hash is
an opaque digest string; the upload timestamp is not modelled). -/
structure TplCacheEntry where
  template_id : String
  html_size_bytes : Nat
deriving Repr, DecidableEq

/-- State threaded through one batch template upload: the bookkeeping
cache and the log of remote template-API calls made (by template name). -/
structure TplState where
  cache : List (String × TplCacheEntry) := []
  calls : List String := []
deriving Repr, DecidableEq

/-- BatchTemplateUploadSummary dataclass (wall-clock time not modelled). -/
structure BatchTemplateUploadSummary where
  total_templates : Nat
  successful_uploads : Nat
  failed_uploads : Nat
  template_ids : List (String × String)
  errors : List String
  upload_results : List TemplateUploadResult
deriving Repr, DecidableEq

/-- Python's `str.lower()` over the characters of the HTML document. -/
def pyLower (l : List Char) : List Char := l.map Char.toLower

/-- Python's `str.strip()`: drop whitespace from both ends. -/
def pyStrip (l : List Char) : List Char :=
  ((l.dropWhile Char.isWhitespace).reverse.dropWhile Char.isWhitespace).reverse

/-- The UTF-8 byte length of the document, `len(html.encode('utf-8'))`. -/
def utf8Len (l : List Char) : Nat := (l.map Char.utf8Size).sum

/-- Whether `needle` starts `haystack`. -/
def startsWith : List Char → List Char → Bool
  | [], _ => true
  | _ :: _, [] => false
  | a :: as, b :: bs => a = b && startsWith as bs

/-- Python's substring containment `needle in haystack`. -/
def containsSub (needle : List Char) : List Char → Bool
  | [] => startsWith needle []
  | b :: bs => startsWith needle (b :: bs) || containsSub needle bs

/-- _validate_html_content: returns the `(is_valid, error_message)` pair of
the source.  The `mcusercontent.com` check in the source only emits a
log warning and does not influence the returned pair. -/
def _validate_html_content (html_content : List Char) : Bool × Option String :=
  if html_content = [] ∨ pyStrip html_content = [] then
    (false, some "HTML content is empty")
  else if html_content.length > 10000000 then
    (false, some ("HTML content too large: " ++ toString html_content.length ++
      " bytes (max 10MB)"))
  else if !(containsSub "<html".toList (pyLower html_content)) then
    (false, some "HTML content missing <html> tag")
  else if !(containsSub "<body".toList (pyLower html_content)) then
    (false, some "HTML content missing <body> tag")
  else
    (true, none)

/-- _upload_single_template: validate (a failure produces a failed result
without touching the network), call the template API (recorded in
`calls`), handle a missing id, record the bookkeeping cache entry, and
classify exceptions into failed results. -/
def _upload_single_template (env : TplEnv) (html_content : List Char)
    (template_name : String) (st : TplState) : TemplateUploadResult × TplState :=
  let html_size := utf8Len html_content
  match _validate_html_content html_content with
  | (false, err) =>
    ({ template_name := template_name, success := false,
       error_message := some ("Validation error: " ++ err.getD "None"),
       html_size_bytes := html_size }, st)
  | (true, _) =>
    let st2 := { st with calls := st.calls ++ [template_name] }
    match env.upload template_name with
    | TplResponse.ok none =>
      ({ template_name := template_name, success := false,
         error_message := some "No template ID returned from Mailchimp",
         html_size_bytes := html_size }, st2)
    | TplResponse.ok (some template_id) =>
      let st3 := { st2 with cache := st2.cache ++
        [(template_name, { template_id := template_id, html_size_bytes := html_size })] }
      ({ template_name := template_name, success := true,
         template_id := some template_id, html_size_bytes := html_size }, st3)
    | TplResponse.mailchimpError m =>
      ({ template_name := template_name, success := false,
         error_message := some ("Mailchimp error: " ++ m),
         html_size_bytes := html_size }, st2)
    | TplResponse.otherError m =>
      ({ template_name := template_name, success := false,
         error_message := some ("Unexpected error: " ++ m),
         html_size_bytes := html_size }, st2)

/-- One input document: `(html_content, country, language_code, locale)`. -/
structure TplDoc where
  html : List Char
  country : String
  language_code : String
  locale : String

/-- _generate_template_name with the timestamp supplied by the caller. -/
def _generate_template_name (country language_code locale timestamp : String) : String :=
  let clean_country := (country.replace " " "_").replace "-" "_"
  clean_country ++ "_" ++ language_code ++ "_" ++ locale ++ "_" ++ timestamp

/-- The sequential `for html_content, country, language_code, locale in
templates` loop of `upload_templates_for_newsletter`, with accumulators
for the result list, the template-id dict and the error list, and the
document index driving the per-document timestamp. -/
def tplLoop (env : TplEnv) :
    List TplDoc → Nat → List TemplateUploadResult → List (String × String) →
    List String → TplState →
    List TemplateUploadResult × List (String × String) × List String × TplState
  | [], _, results, ids, errs, st => (results, ids, errs, st)
  | d :: rest, i, results, ids, errs, st =>
    let template_name :=
      _generate_template_name d.country d.language_code d.locale (env.timestamp i)
    let ur := _upload_single_template env d.html template_name st
    let results2 := results ++ [ur.1]
    match ur.1.template_id, ur.1.success with
    | some tid, true =>
      tplLoop env rest (i + 1) results2 (dictUpsert ids template_name tid) errs ur.2
    | _, _ =>
      tplLoop env rest (i + 1) results2 ids
        (errs ++ [template_name ++ ": " ++ ur.1.error_message.getD "None"]) ur.2

/-- upload_templates_for_newsletter: empty input short-circuits to an empty
summary; otherwise the sequential loop runs and its accumulators are
assembled into the summary. -/
def upload_templates_for_newsletter (env : TplEnv) (templates : List TplDoc)
    (st : TplState) : BatchTemplateUploadSummary × TplState :=
  if templates.isEmpty then
    ({ total_templates := 0, successful_uploads := 0, failed_uploads := 0,
       template_ids := [], errors := [], upload_results := [] }, st)
  else
    let lres := tplLoop env templates 0 [] [] [] st
    let upload_results := lres.1
    let successful_uploads := (upload_results.filter (fun r => r.success)).length
    ({ total_templates := templates.length,
       successful_uploads := successful_uploads,
       failed_uploads := upload_results.length - successful_uploads,
       template_ids := lres.2.1, errors := lres.2.2.1,
       upload_results := upload_results }, lres.2.2.2)

/-! ## Theorems about the Compression Engine -/

/-- ensureInner only returns a file at or below the hard limit. -/
lemma ensureInner_size_le (saveSize : SaveSize) (f f2 : ImgFile)
    (h : ensureInner saveSize f = Except.ok f2) : f2.size ≤ MAX_FILE_SIZE_BYTES := by
  unfold ensureInner at h
  cases hL : ladderLoop saveSize COMPRESSION_STRATEGIES f with
  | error e => rw [hL] at h; exact absurd h (by simp)
  | ok g =>
    rw [hL] at h
    dsimp only at h
    by_cases hs : g.size > MAX_FILE_SIZE_BYTES
    · rw [if_pos hs] at h; exact absurd h (by simp)
    · rw [if_neg hs] at h
      cases h
      exact Nat.le_of_not_lt hs

/-- C1, code_bug.  The claim says `ensure_under_1mb` either returns a path
whose file is at most the 1 MiB hard limit or raises CriticalImageError.
The first half is true: every returned file is at most the hard limit, and
every failure surfaces as some exception.  But the exception is always
ImageCompressionError, never CriticalImageError: the CriticalImageError
raised by the final size check sits inside the same `try` whose
`except Exception` clause wraps every exception into
ImageCompressionError, contradicting the function's own docstring
("Raises: CriticalImageError: If image cannot be compressed under 1MB
after all attempts") and the dedicated `except CriticalImageError`
handler of its caller in batch_image_upload.py.  First conjunct:
evaluation at a failing input — a 3 MiB image that re-encodes to 2 MiB
under every ladder strategy — yields ImageCompressionError.  Second
conjunct: on every input the function either returns a file at most the
hard limit or raises ImageCompressionError; CriticalImageError is
unreachable. -/
theorem C1_ensure_under_1mb_wraps_critical_error :
    ensure_under_1mb (fun _ _ => 2097152) true
      ⟨3145728, OpenResult.ok ⟨4000, 3000, "RGB"⟩⟩ =
      Except.error ImgExc.imageCompressionError ∧
    ∀ (saveSize : SaveSize) (isfile : Bool) (f : ImgFile),
      (∃ g, ensure_under_1mb saveSize isfile f = Except.ok g ∧
        g.size ≤ MAX_FILE_SIZE_BYTES) ∨
      ensure_under_1mb saveSize isfile f = Except.error ImgExc.imageCompressionError := by
  constructor
  · rfl
  · intro saveSize isfile f
    unfold ensure_under_1mb
    cases isfile with
    | false => right; rfl
    | true =>
      simp only [Bool.not_true, Bool.false_eq_true, if_false]
      by_cases hm : f.size ≤ SAFETY_MARGIN_BYTES
      · left
        refine ⟨f, by rw [if_pos hm], ?_⟩
        exact le_trans hm (by decide)
      · rw [if_neg hm]
        cases hI : ensureInner saveSize f with
        | ok g => exact Or.inl ⟨g, rfl, ensureInner_size_le saveSize f g hI⟩
        | error e => cases e <;> exact Or.inr rfl

/-- C7, confirmed.  Any file already at or below the safety margin (95% of
the 1 MiB hard limit, i.e. at most 996147 bytes) is returned unchanged by
ensure_under_1mb: same path, same bytes, no re-encoding. -/
theorem C7_below_margin_returned_unmodified (saveSize : SaveSize) (f : ImgFile)
    (h : f.size ≤ SAFETY_MARGIN_BYTES) :
    ensure_under_1mb saveSize true f = Except.ok f := by
  unfold ensure_under_1mb
  simp only [Bool.not_true, Bool.false_eq_true, if_false]
  rw [if_pos h]

/-- Witness for C7 at a concrete input: a 500000-byte file is below the
safety margin and comes back unchanged. -/
theorem C7_below_margin_returned_unmodified_witness :
    500000 ≤ SAFETY_MARGIN_BYTES ∧
    ensure_under_1mb (fun _ _ => 2097152) true ⟨500000, OpenResult.ok ⟨800, 600, "RGB"⟩⟩ =
      Except.ok ⟨500000, OpenResult.ok ⟨800, 600, "RGB"⟩⟩ :=
  ⟨by decide,
   C7_below_margin_returned_unmodified (fun _ _ => 2097152)
     ⟨500000, OpenResult.ok ⟨800, 600, "RGB"⟩⟩ (by decide)⟩

/-- C8, counterexample.  The claim says a zero-byte or unreadable file
raises ImageCompressionError immediately.  A zero-byte file that PIL
cannot even open does not raise: 0 bytes is below the safety margin, so
the early-return branch hands the file back unchanged before any open is
attempted. -/
theorem C8_counterexample_zero_byte_file_returned :
    ensure_under_1mb (fun _ _ => 2097152) true ⟨0, OpenResult.unidentified⟩ =
      Except.ok ⟨0, OpenResult.unidentified⟩ := by
  rfl

/-- C8, amended.  A nonexistent path raises ImageCompressionError
immediately.  A file that cannot be opened as an image raises
ImageCompressionError only when its size exceeds the safety margin (the
failed open surfaces on the first ladder strategy); any unreadable —
including zero-byte — file at or below the safety margin is instead
returned unchanged, because the early size check precedes any attempt to
open the file. -/
theorem C8_unreadable_file_handling (saveSize : SaveSize) (f : ImgFile) :
    ensure_under_1mb saveSize false f = Except.error ImgExc.imageCompressionError ∧
    (SAFETY_MARGIN_BYTES < f.size → f.opened = OpenResult.unidentified →
      ensure_under_1mb saveSize true f = Except.error ImgExc.imageCompressionError) ∧
    (f.size ≤ SAFETY_MARGIN_BYTES → ensure_under_1mb saveSize true f = Except.ok f) := by
  refine ⟨rfl, ?_, ?_⟩
  · intro hsz hop
    unfold ensure_under_1mb
    simp only [Bool.not_true, Bool.false_eq_true, if_false]
    rw [if_neg (Nat.not_le_of_lt hsz)]
    unfold ensureInner COMPRESSION_STRATEGIES ladderLoop
    rw [if_neg (Nat.not_le_of_lt hsz), hop]
  · intro h
    unfold ensure_under_1mb
    simp only [Bool.not_true, Bool.false_eq_true, if_false]
    rw [if_pos h]

/-- Witness for C8's amended theorem at concrete inputs: a 2000000-byte
unreadable file errors, a zero-byte unreadable file is returned as-is. -/
theorem C8_unreadable_file_handling_witness :
    ensure_under_1mb (fun _ _ => 2097152) true ⟨2000000, OpenResult.unidentified⟩ =
      Except.error ImgExc.imageCompressionError ∧
    ensure_under_1mb (fun _ _ => 2097152) true ⟨0, OpenResult.otherExc⟩ =
      Except.ok ⟨0, OpenResult.otherExc⟩ :=
  ⟨(C8_unreadable_file_handling (fun _ _ => 2097152)
      ⟨2000000, OpenResult.unidentified⟩).2.1 (by decide) rfl,
   (C8_unreadable_file_handling (fun _ _ => 2097152)
      ⟨0, OpenResult.otherExc⟩).2.2 (by decide)⟩

/-! ## Theorems about the batch summary counters -/

/-- One summary step never changes total_images. -/
lemma summaryStep_total_images (s : BatchUploadSummary) (r : UploadResult) :
    (summaryStep s r).total_images = s.total_images := by
  unfold summaryStep
  repeat' split
  all_goals rfl

/-- One summary step increments exactly one of the four outcome counters. -/
lemma summaryStep_counters (s : BatchUploadSummary) (r : UploadResult) :
    (summaryStep s r).successful_uploads + (summaryStep s r).cached_hits +
      (summaryStep s r).failed_uploads + (summaryStep s r).skipped_images =
    s.successful_uploads + s.cached_hits + s.failed_uploads + s.skipped_images + 1 := by
  unfold summaryStep
  repeat' split
  all_goals simp
  all_goals omega

/-- A result with skipped = false never touches the skipped counter. -/
lemma summaryStep_skipped (s : BatchUploadSummary) (r : UploadResult)
    (h : r.skipped = false) :
    (summaryStep s r).skipped_images = s.skipped_images := by
  unfold summaryStep
  rw [h]
  repeat' split
  all_goals (try rfl)
  all_goals simp_all

/-- Folding the summary loop never changes total_images. -/
lemma foldl_summaryStep_total : ∀ (rs : List UploadResult) (s : BatchUploadSummary),
    (rs.foldl summaryStep s).total_images = s.total_images
  | [], _ => rfl
  | r :: rs, s => by
    rw [List.foldl_cons, foldl_summaryStep_total rs, summaryStep_total_images]

/-- Folding the summary loop adds the list length to the counter sum. -/
lemma foldl_summaryStep_counters : ∀ (rs : List UploadResult) (s : BatchUploadSummary),
    (rs.foldl summaryStep s).successful_uploads + (rs.foldl summaryStep s).cached_hits +
      (rs.foldl summaryStep s).failed_uploads + (rs.foldl summaryStep s).skipped_images =
    s.successful_uploads + s.cached_hits + s.failed_uploads + s.skipped_images + rs.length
  | [], _ => by simp
  | r :: rs, s => by
    rw [List.foldl_cons]
    have h1 := foldl_summaryStep_counters rs (summaryStep s r)
    have h2 := summaryStep_counters s r
    simp only [List.length_cons]
    omega

/-- Folding the summary loop over unskipped results keeps skipped_images. -/
lemma foldl_summaryStep_skipped : ∀ (rs : List UploadResult) (s : BatchUploadSummary),
    (∀ r ∈ rs, r.skipped = false) →
    (rs.foldl summaryStep s).skipped_images = s.skipped_images
  | [], _, _ => rfl
  | r :: rs, s, h => by
    rw [List.foldl_cons, foldl_summaryStep_skipped rs _ (fun x hx => h x (List.mem_cons_of_mem r hx)),
      summaryStep_skipped s r (h r (List.mem_cons_self r rs))]

/-- Every successful run of process_newsletter_images reports the summary
generated from its internal result list. -/
lemma process_ok_summary_eq (env : BatchEnv) (mr : Nat) (paths : List String)
    (cx pr rm cache0 : List (String × String)) (out : ProcOut)
    (h : process_newsletter_images env mr paths cx pr rm cache0 = Except.ok out) :
    out.summary = _generate_summary out.results := by
  unfold process_newsletter_images at h
  by_cases he : (mkAssets env cx pr rm paths).isEmpty
  · rw [if_pos he] at h
    cases h
    rfl
  · rw [if_neg he] at h
    cases hD : _optimize_and_deduplicate env cache0 (mkAssets env cx pr rm paths) with
    | error e => rw [hD] at h; exact absurd h (by simp)
    | ok opt =>
      rw [hD] at h
      dsimp only at h
      cases h
      rfl

/-- C2, confirmed.  Every BatchUploadSummary returned by
process_newsletter_images satisfies
successful_uploads + cached_hits + failed_uploads + skipped_images =
total_images: the summary loop classifies each result into exactly one of
the four counters and total_images is the result count. -/
theorem C2_summary_counter_equation (env : BatchEnv) (mr : Nat) (paths : List String)
    (cx pr rm cache0 : List (String × String)) (out : ProcOut)
    (h : process_newsletter_images env mr paths cx pr rm cache0 = Except.ok out) :
    out.summary.successful_uploads + out.summary.cached_hits +
      out.summary.failed_uploads + out.summary.skipped_images =
      out.summary.total_images := by
  rw [process_ok_summary_eq env mr paths cx pr rm cache0 out h]
  unfold _generate_summary
  rw [foldl_summaryStep_total]
  have := foldl_summaryStep_counters out.results { total_images := out.results.length }
  simpa using this

/-- Witness for C2 at a concrete input: one existing 7-byte image whose
upload succeeds at once. -/
theorem C2_summary_counter_equation_witness :
    process_newsletter_images
        { exists_ := fun _ => true, hash := fun _ => "h", size := fun _ => 7,
          compress := fun p => Except.ok p, upload := fun _ _ => Except.ok "u" }
        3 ["a.jpg"] [] [] [] [] = Except.ok
      ⟨{ total_images := 1, successful_uploads := 1, cached_hits := 0, failed_uploads := 0,
         skipped_images := 0, total_size_bytes := 7, url_mappings := [("a.jpg", "u")],
         errors := [] },
       [⟨⟨"a.jpg", "inline", "normal", "h", none, some "a.jpg", none⟩, some "u", true, none,
         false, false, 7⟩],
       ⟨[("h", "u")], ["a.jpg"], []⟩⟩ ∧
    (1 : Nat) + 0 + 0 + 0 = 1 :=
  ⟨rfl,
   C2_summary_counter_equation
     { exists_ := fun _ => true, hash := fun _ => "h", size := fun _ => 7,
       compress := fun p => Except.ok p, upload := fun _ _ => Except.ok "u" }
     3 ["a.jpg"] [] [] [] [] _ rfl⟩

/-! ## Theorems about skipped accounting and drop-on-error behaviour -/

/-- The retry loop only ever builds results with skipped = false. -/
lemma retryGo_skipped (env : BatchEnv) (mr : Nat) (a : ImageAsset) :
    ∀ (fuel attempt : Nat) (st : UpState) (r : UploadResult),
      (retryGo env mr a attempt st fuel).1 = some r → r.skipped = false := by
  intro fuel
  induction fuel with
  | zero =>
    intro attempt st r h
    exact absurd h (by simp [retryGo])
  | succ n ih =>
    intro attempt st r h
    unfold retryGo at h
    dsimp only at h
    split at h
    · split at h
      · exact ih _ _ r h
      · simp only [Option.some.injEq] at h
        subst h; rfl
    · split at h
      · simp only [Option.some.injEq] at h
        subst h; rfl
      · split at h
        · exact ih _ _ r h
        · simp only [Option.some.injEq] at h
          subst h; rfl

/-- Results collected by the upload fold all have skipped = false. -/
lemma uploadFold_skipped (env : BatchEnv) (mr : Nat) :
    ∀ (l : List ImageAsset) (st : UpState) (r : UploadResult),
      r ∈ (uploadFold env mr l st).1 → r.skipped = false := by
  intro l
  induction l with
  | nil => intro st r h; simp [uploadFold] at h
  | cons a rest ih =>
    intro st r h
    unfold uploadFold at h
    dsimp only at h
    cases hu : (_upload_with_retry env mr a st).1 with
    | none => rw [hu] at h; exact ih _ r h
    | some r0 =>
      rw [hu] at h
      dsimp only at h
      rcases List.mem_cons.mp h with h1 | h1
      · subst h1
        exact retryGo_skipped env mr a mr 0 st _ hu
      · exact ih _ r h1

/-- Every result of the batch upload phase has skipped = false. -/
lemma batch_skipped (env : BatchEnv) (mr : Nat) (l : List ImageAsset) (st : UpState)
    (r : UploadResult) (h : r ∈ (_batch_upload_with_progress env mr l st).1) :
    r.skipped = false := by
  unfold _batch_upload_with_progress at h
  dsimp only at h
  rcases List.mem_append.mp h with h1 | h1
  · obtain ⟨a, _, rfl⟩ := List.mem_map.mp h1
    rfl
  · exact uploadFold_skipped env mr _ st r h1

/-- Every result of a successful process run has skipped = false. -/
lemma process_results_skipped (env : BatchEnv) (mr : Nat) (paths : List String)
    (cx pr rm cache0 : List (String × String)) (out : ProcOut)
    (h : process_newsletter_images env mr paths cx pr rm cache0 = Except.ok out) :
    ∀ r ∈ out.results, r.skipped = false := by
  unfold process_newsletter_images at h
  by_cases he : (mkAssets env cx pr rm paths).isEmpty
  · rw [if_pos he] at h
    cases h
    intro r hr
    simp at hr
  · rw [if_neg he] at h
    cases hD : _optimize_and_deduplicate env cache0 (mkAssets env cx pr rm paths) with
    | error e => rw [hD] at h; exact absurd h (by simp)
    | ok opt =>
      rw [hD] at h
      dsimp only at h
      cases h
      intro r hr
      exact batch_skipped env mr opt _ r hr

/-- C10, confirmed.  In every summary returned by process_newsletter_images,
skipped_images = 0: no code path constructs an UploadResult with
skipped = true (cache hits, successful uploads and exhausted retries all
set it false), and assets dropped during optimization never enter the
result list at all, so they contribute to no counter. -/
theorem C10_skipped_images_always_zero (env : BatchEnv) (mr : Nat)
    (paths : List String) (cx pr rm cache0 : List (String × String)) (out : ProcOut)
    (h : process_newsletter_images env mr paths cx pr rm cache0 = Except.ok out) :
    out.summary.skipped_images = 0 ∧ ∀ r ∈ out.results, r.skipped = false := by
  refine ⟨?_, process_results_skipped env mr paths cx pr rm cache0 out h⟩
  rw [process_ok_summary_eq env mr paths cx pr rm cache0 out h]
  unfold _generate_summary
  rw [foldl_summaryStep_skipped out.results _
    (process_results_skipped env mr paths cx pr rm cache0 out h)]

/-- Witness for C10 at a concrete input: a single asset whose upload fails
permanently is counted failed, never skipped. -/
theorem C10_skipped_images_always_zero_witness :
    process_newsletter_images
        { exists_ := fun _ => true, hash := fun _ => "k", size := fun _ => 5,
          compress := fun p => Except.ok p, upload := fun _ _ => Except.error "boom" }
        3 ["x.png"] [] [] [] [] = Except.ok
      ⟨{ total_images := 1, successful_uploads := 0, cached_hits := 0, failed_uploads := 1,
         skipped_images := 0, total_size_bytes := 0, url_mappings := [],
         errors := ["x.png: boom"] },
       [⟨⟨"x.png", "inline", "normal", "k", none, some "x.png", none⟩, none, false,
         some "boom", false, false, 0⟩],
       ⟨[], ["x.png", "x.png", "x.png"], [1, 2]⟩⟩ ∧
    (0 : Nat) = 0 :=
  ⟨rfl,
   (C10_skipped_images_always_zero
     { exists_ := fun _ => true, hash := fun _ => "k", size := fun _ => 5,
       compress := fun p => Except.ok p, upload := fun _ _ => Except.error "boom" }
     3 ["x.png"] [] [] [] [] _ rfl).1⟩

/-- C3, counterexample.  The claim says a non-critical asset whose
compression raises the critical error is recorded as skipped in the
summary.  Concretely: a batch of a normal-priority asset with a critical
compression failure plus one good asset yields a summary with
skipped_images = 0, total_images = 1 and failed_uploads = 0 — the failed
asset is dropped from the run entirely, recorded neither as skipped nor
as failed. -/
theorem C3_counterexample_dropped_not_recorded_skipped :
    (process_newsletter_images
        { exists_ := fun _ => true, hash := fun p => p ++ "#", size := fun _ => 1000,
          compress := fun p =>
            if p = "bad.jpg" then Except.error (CompressExc.critical "boom")
            else Except.ok p,
          upload := fun _ _ => Except.ok "URL" }
        3 ["bad.jpg", "good.jpg"] [] [] [] []).map
      (fun out => (out.summary.skipped_images, out.summary.total_images,
                   out.summary.failed_uploads, out.summary.successful_uploads)) =
      Except.ok (0, 1, 0, 1) := by
  rfl

/-- C3, amended.  When compression raises the critical error for an asset
during the deduplicate/pre-filter phase: a critical-priority asset aborts
the whole batch (the loop returns the propagating error at once, so no
further asset is compressed or uploaded); an asset of any other priority
is dropped entirely — the loop continues with the remaining assets
exactly as if the asset were absent, so it is recorded neither as
skipped nor as failed in the summary (C10: skipped_images is always 0). -/
theorem C3_critical_compression_abort_or_drop (env : BatchEnv)
    (cache : List (String × String)) (a : ImageAsset) (rest : List ImageAsset)
    (seen : List String) (m : String)
    (hseen : a.content_hash ∉ seen)
    (hcache : cache.lookup a.content_hash = none)
    (hcomp : env.compress a.source_path = Except.error (CompressExc.critical m)) :
    (a.priority = "critical" → dedupLoop env cache (a :: rest) seen = Except.error m) ∧
    (a.priority ≠ "critical" →
      dedupLoop env cache (a :: rest) seen =
        dedupLoop env cache rest (a.content_hash :: seen)) := by
  constructor <;> intro hp <;> simp [dedupLoop, hseen, hcache, hcomp, hp]

/-- Witness for C3's amended theorem at concrete inputs: the critical
priority aborts, the normal priority continues without the asset. -/
theorem C3_critical_compression_abort_or_drop_witness :
    dedupLoop
      { exists_ := fun _ => true, hash := fun p => p, size := fun _ => 1000,
        compress := fun _ => Except.error (CompressExc.critical "boom"),
        upload := fun _ _ => Except.ok "URL" }
      [] [⟨"bad.jpg", "inline", "critical", "bh", none, none, none⟩] [] =
      Except.error "boom" ∧
    dedupLoop
      { exists_ := fun _ => true, hash := fun p => p, size := fun _ => 1000,
        compress := fun _ => Except.error (CompressExc.critical "boom"),
        upload := fun _ _ => Except.ok "URL" }
      [] [⟨"bad.jpg", "inline", "normal", "bh", none, none, none⟩] [] =
      dedupLoop
        { exists_ := fun _ => true, hash := fun p => p, size := fun _ => 1000,
          compress := fun _ => Except.error (CompressExc.critical "boom"),
          upload := fun _ _ => Except.ok "URL" }
        [] [] ["bh"] :=
  ⟨(C3_critical_compression_abort_or_drop _ [] _ [] [] "boom" (by simp) rfl rfl).1 rfl,
   (C3_critical_compression_abort_or_drop _ [] _ [] [] "boom" (by simp) rfl rfl).2
     (by decide)⟩

/-- C4, counterexample.  The claim says that for two descriptors with
identical content but different paths, url_mappings contains entries for
both paths.  Concretely: two paths with the same content hash produce
exactly one upload call (that part of the claim holds), but the resulting
url_mappings has an entry only for the surviving representative "a.jpg";
the duplicate "b.jpg" is absent. -/
theorem C4_counterexample_duplicate_path_unmapped :
    (process_newsletter_images
        { exists_ := fun _ => true,
          hash := fun p => if p = "a.jpg" ∨ p = "b.jpg" then "h1" else "h2",
          size := fun _ => 1000, compress := fun p => Except.ok p,
          upload := fun _ _ => Except.ok "URL" }
        3 ["a.jpg", "b.jpg"] [] [] [] []).map
      (fun out => (out.state.calls, out.summary.url_mappings.lookup "a.jpg",
                   out.summary.url_mappings.lookup "b.jpg")) =
      Except.ok (["a.jpg"], some "URL", none) := by
  rfl

/-- C4, amended.  For two descriptors with identical content hash but
different paths (the second deduplicated away), process issues exactly
one network upload call, and url_mappings maps the representative
descriptor's path (doubling as its original-reference alias here) to the
hosted URL — the dropped duplicate's path has no entry at all. -/
theorem C4_single_upload_only_representative_mapped (env : BatchEnv)
    (p1 p2 u : String)
    (hne : p2 ≠ p1) (hex1 : env.exists_ p1 = true) (hex2 : env.exists_ p2 = true)
    (hhash : env.hash p2 = env.hash p1)
    (hcomp : env.compress p1 = Except.ok p1)
    (hsz : env.size p1 ≤ MAX_FILE_SIZE_BYTES)
    (hup : env.upload p1 0 = Except.ok u) :
    (process_newsletter_images env 3 [p1, p2] [] [] [] []).map
      (fun out => (out.state.calls, out.summary.url_mappings.lookup p1,
                   out.summary.url_mappings.lookup p2)) = Except.ok ([p1], some u, none) := by
  have hsz2 : ¬ (env.size p1 > MAX_FILE_SIZE_BYTES) := not_lt.mpr hsz
  simp [process_newsletter_images, mkAssets, mkAsset, hex1, hex2, lookupD, _optimize_and_deduplicate,
        stableSortByKey, stableInsert, priorityOrder, dedupLoop, hhash, hcomp,
        _batch_upload_with_progress, uploadFold, _upload_with_retry, retryGo,
        validate_mailchimp_size_limit, hsz2, hup, _generate_summary,
        summaryStep, dictUpsert, List.lookup, hne]
  simp [Except.map, List.lookup, beq_iff_eq, hne]
  rw [beq_eq_false_iff_ne.mpr hne]

/-- Witness for C4's amended theorem at a concrete input. -/
theorem C4_single_upload_only_representative_mapped_witness :
    (process_newsletter_images
        { exists_ := fun _ => true, hash := fun _ => "hh", size := fun _ => 9,
          compress := fun p => Except.ok p, upload := fun _ _ => Except.ok "hosted" }
        3 ["one.png", "two.png"] [] [] [] []).map
      (fun out => (out.state.calls, out.summary.url_mappings.lookup "one.png",
                   out.summary.url_mappings.lookup "two.png")) =
      Except.ok (["one.png"], some "hosted", none) :=
  C4_single_upload_only_representative_mapped
    { exists_ := fun _ => true, hash := fun _ => "hh", size := fun _ => 9,
      compress := fun p => Except.ok p, upload := fun _ _ => Except.ok "hosted" }
    "one.png" "two.png" "hosted" (by decide) rfl rfl rfl rfl (by decide) rfl

/-! ## Theorems about the retry policy -/

/-- With fuel left and the attempt index in range, the retry loop always
returns a result (never the `None` fall-through). -/
lemma retryGo_isSome (env : BatchEnv) (a : ImageAsset) (mr : Nat) :
    ∀ (fuel attempt : Nat) (st : UpState), mr ≤ attempt + fuel → attempt < mr →
      ((retryGo env mr a attempt st fuel).1).isSome = true := by
  intro fuel
  induction fuel with
  | zero => intro attempt st h1 h2; omega
  | succ n ih =>
    intro attempt st h1 h2
    unfold retryGo
    dsimp only
    split
    · split
      · next hlt => exact ih (attempt + 1) _ (by omega) (by omega)
      · simp
    · split
      · simp
      · split
        · next hlt => exact ih (attempt + 1) _ (by omega) (by omega)
        · simp

/-- With at least one retry allowed, every dispatched asset produces
exactly one result. -/
lemma uploadFold_length (env : BatchEnv) (mr : Nat) (hmr : 1 ≤ mr) :
    ∀ (l : List ImageAsset) (st : UpState),
      ((uploadFold env mr l st).1).length = l.length := by
  intro l
  induction l with
  | nil => intro st; rfl
  | cons a rest ih =>
    intro st
    unfold uploadFold
    dsimp only
    cases hu : (_upload_with_retry env mr a st).1 with
    | none =>
      exfalso
      have hs := retryGo_isSome env a mr mr 0 st (by omega) (by omega)
      unfold _upload_with_retry at hu
      rw [hu] at hs
      simp at hs
    | some r0 => simp [ih]

/-- The cached/non-cached split preserves the total count. -/
lemma filter_length_partition (l : List ImageAsset) :
    (l.filter (fun a => a.cached_url.isSome)).length +
    (l.filter (fun a => !a.cached_url.isSome)).length = l.length :=
  (@List.length_eq_length_filter_add ImageAsset l (fun a => a.cached_url.isSome)).symm

/-- The batch upload phase produces one result per asset. -/
lemma batch_length (env : BatchEnv) (mr : Nat) (hmr : 1 ≤ mr)
    (l : List ImageAsset) (st : UpState) :
    ((_batch_upload_with_progress env mr l st).1).length = l.length := by
  unfold _batch_upload_with_progress
  dsimp only
  rw [List.length_append, List.length_map, uploadFold_length env mr hmr]
  exact filter_length_partition l

/-- The retry loop adds at most `fuel` upload calls to the log. -/
lemma retryGo_calls_le (env : BatchEnv) (a : ImageAsset) (mr : Nat) :
    ∀ (fuel attempt : Nat) (st : UpState),
      ((retryGo env mr a attempt st fuel).2.calls).length ≤ st.calls.length + fuel := by
  intro fuel
  induction fuel with
  | zero => intro attempt st; simp [retryGo]
  | succ n ih =>
    intro attempt st
    unfold retryGo
    dsimp only
    split
    · split
      · refine le_trans (ih (attempt + 1) _) ?_
        simp only [List.length_append, List.length_cons, List.length_nil]
        omega
      · simp only []
        omega
    · split
      · simp only [List.length_append, List.length_cons, List.length_nil]
        omega
      · split
        · refine le_trans (ih (attempt + 1) _) ?_
          simp only [List.length_append, List.length_cons, List.length_nil]
          omega
        · simp only [List.length_append, List.length_cons, List.length_nil]
          omega

/-- C5, confirmed.  For an asset whose upload fails on every one of the
default 3 attempts: exactly 3 upload calls are made, the worker sleeps
2^0 = 1 then 2^1 = 2 seconds between consecutive attempts, and the final
attempt yields a failed result carrying the last error message — without
raising, so the batch is unaffected (second conjunct: the batch phase
still returns exactly one outcome per dispatched asset, whatever each
asset's fate); third conjunct: in general the retry loop never makes more
than max_retries upload calls for one asset. -/
theorem C5_retry_backoff_and_isolation (env : BatchEnv) (a : ImageAsset)
    (errs : Nat → String)
    (hsz : env.size (a.optimized_path.getD a.source_path) ≤ MAX_FILE_SIZE_BYTES)
    (hup : ∀ i, i < 3 → env.upload (a.optimized_path.getD a.source_path) i =
      Except.error (errs i)) :
    (∀ st : UpState, _upload_with_retry env 3 a st =
      (some ⟨a, none, false, some (errs 2), false, false, 0⟩,
       ⟨st.cache,
        st.calls ++ [a.optimized_path.getD a.source_path,
          a.optimized_path.getD a.source_path, a.optimized_path.getD a.source_path],
        st.sleeps ++ [1, 2]⟩)) ∧
    (∀ (l : List ImageAsset) (st : UpState),
      ((_batch_upload_with_progress env 3 l st).1).length = l.length) ∧
    (∀ (mr : Nat) (st : UpState) (attempt fuel : Nat),
      ((retryGo env mr a attempt st fuel).2.calls).length ≤ st.calls.length + fuel) := by
  have hsz2 : ¬ (env.size (a.optimized_path.getD a.source_path) > MAX_FILE_SIZE_BYTES) :=
    not_lt.mpr hsz
  refine ⟨?_, fun l st => batch_length env 3 (by omega) l st,
    fun mr st attempt fuel => retryGo_calls_le env a mr fuel attempt st⟩
  intro st
  simp [_upload_with_retry, retryGo, validate_mailchimp_size_limit, hsz2,
        hup 0 (by omega), hup 1 (by omega), hup 2 (by omega)]

/-- Witness for C5 at a concrete input: a permanently failing upload makes
exactly three calls, sleeps 1 s and 2 s, yields a failed result, and a
two-asset batch still yields two outcomes. -/
theorem C5_retry_backoff_and_isolation_witness :
    _upload_with_retry
        { exists_ := fun _ => true, hash := fun p => p, size := fun _ => 11,
          compress := fun p => Except.ok p, upload := fun _ _ => Except.error "netdown" }
        3 ⟨"f.jpg", "inline", "normal", "fh", none, some "f.jpg", none⟩ ⟨[], [], []⟩ =
      (some ⟨⟨"f.jpg", "inline", "normal", "fh", none, some "f.jpg", none⟩, none, false,
        some "netdown", false, false, 0⟩,
       ⟨[], ["f.jpg", "f.jpg", "f.jpg"], [1, 2]⟩) ∧
    ((_batch_upload_with_progress
        { exists_ := fun _ => true, hash := fun p => p, size := fun _ => 11,
          compress := fun p => Except.ok p, upload := fun _ _ => Except.error "netdown" }
        3 [⟨"f.jpg", "inline", "normal", "fh", none, some "f.jpg", none⟩,
           ⟨"g.jpg", "inline", "normal", "gh", none, some "g.jpg", none⟩]
        ⟨[], [], []⟩).1).length = 2 :=
  ⟨(C5_retry_backoff_and_isolation
      { exists_ := fun _ => true, hash := fun p => p, size := fun _ => 11,
        compress := fun p => Except.ok p, upload := fun _ _ => Except.error "netdown" }
      ⟨"f.jpg", "inline", "normal", "fh", none, some "f.jpg", none⟩
      (fun _ => "netdown") (by decide) (fun _ _ => rfl)).1 ⟨[], [], []⟩,
   (C5_retry_backoff_and_isolation
      { exists_ := fun _ => true, hash := fun p => p, size := fun _ => 11,
        compress := fun p => Except.ok p, upload := fun _ _ => Except.error "netdown" }
      ⟨"f.jpg", "inline", "normal", "fh", none, some "f.jpg", none⟩
      (fun _ => "netdown") (by decide) (fun _ _ => rfl)).2.1
     [⟨"f.jpg", "inline", "normal", "fh", none, some "f.jpg", none⟩,
      ⟨"g.jpg", "inline", "normal", "gh", none, some "g.jpg", none⟩] ⟨[], [], []⟩⟩

/-! ## Theorems about caching and deduplication -/

/-- Membership through one stable insertion. -/
lemma stableInsert_mem (key : ImageAsset → Nat) (x b : ImageAsset) :
    ∀ (l : List ImageAsset), b ∈ stableInsert key x l ↔ b = x ∨ b ∈ l := by
  intro l
  induction l with
  | nil => simp [stableInsert]
  | cons y ys ih =>
    unfold stableInsert
    split
    · simp only [List.mem_cons, ih]
      tauto
    · simp only [List.mem_cons]

/-- The priority sort permutes membership only. -/
lemma stableSortByKey_mem (key : ImageAsset → Nat) (b : ImageAsset) :
    ∀ (l : List ImageAsset), b ∈ stableSortByKey key l ↔ b ∈ l := by
  intro l
  induction l with
  | nil => simp [stableSortByKey]
  | cons x xs ih =>
    unfold stableSortByKey
    rw [stableInsert_mem]
    simp [ih]

/-- An existing input path contributes its asset to phase 1's output. -/
lemma mkAssets_mem (env : BatchEnv) (cx pr rm : List (String × String)) (p : String) :
    ∀ (paths : List String), p ∈ paths → env.exists_ p = true →
      mkAsset env cx pr rm p ∈ mkAssets env cx pr rm paths := by
  intro paths
  induction paths with
  | nil => intro h; simp at h
  | cons q rest ih =>
    intro hp hex
    unfold mkAssets
    rcases List.mem_cons.mp hp with h1 | h1
    · subst h1
      rw [if_pos hex]
      exact List.mem_cons_self _ _
    · split
      · exact List.mem_cons_of_mem _ (ih h1 hex)
      · exact ih h1 hex

/-- Every asset built in phase 1 comes from some existing input path. -/
lemma mkAssets_src (env : BatchEnv) (cx pr rm : List (String × String)) (b : ImageAsset) :
    ∀ (paths : List String), b ∈ mkAssets env cx pr rm paths →
      ∃ q, q ∈ paths ∧ env.exists_ q = true ∧ b = mkAsset env cx pr rm q := by
  intro paths
  induction paths with
  | nil => intro h; simp [mkAssets] at h
  | cons q rest ih =>
    intro hb
    unfold mkAssets at hb
    by_cases hex : env.exists_ q = true
    · rw [if_pos hex] at hb
      rcases List.mem_cons.mp hb with h1 | h1
      · exact ⟨q, List.mem_cons_self q rest, hex, h1⟩
      · obtain ⟨q2, hq2, hex2, heq⟩ := ih h1
        exact ⟨q2, List.mem_cons_of_mem q hq2, hex2, heq⟩
    · rw [if_neg (by simpa using hex)] at hb
      obtain ⟨q2, hq2, hex2, heq⟩ := ih hb
      exact ⟨q2, List.mem_cons_of_mem q hq2, hex2, heq⟩

/-- If an asset is the unique carrier of its (cached) hash in the loop
input and the hash is not yet seen, the deduplication loop emits it with
the cached URL attached. -/
lemma dedupLoop_cache_hit_mem (env : BatchEnv) (cache : List (String × String))
    (ap : ImageAsset) (u : String) :
    ∀ (l : List ImageAsset) (seen : List String) (outl : List ImageAsset),
      dedupLoop env cache l seen = Except.ok outl →
      ap ∈ l → (∀ b ∈ l, b.content_hash = ap.content_hash → b = ap) →
      ap.content_hash ∉ seen →
      cache.lookup ap.content_hash = some u →
      { ap with cached_url := some u } ∈ outl := by
  intro l
  induction l with
  | nil => intro seen outl h hmem; simp at hmem
  | cons a rest ih =>
    intro seen outl h hmem huniq hseen hcache
    unfold dedupLoop at h
    dsimp only at h
    by_cases heq : a = ap
    · subst heq
      rw [if_neg hseen] at h
      rw [hcache] at h
      dsimp only at h
      cases hT : dedupLoop env cache rest (a.content_hash :: seen) with
      | error e => rw [hT] at h; exact absurd h (by simp)
      | ok tail =>
        rw [hT] at h
        simp only [Except.ok.injEq] at h
        subst h
        exact List.mem_cons_self _ _
    · have hmem2 : ap ∈ rest := by
        rcases List.mem_cons.mp hmem with h1 | h1
        · exact absurd h1.symm heq
        · exact h1
      have huniq2 : ∀ b ∈ rest, b.content_hash = ap.content_hash → b = ap :=
        fun b hb => huniq b (List.mem_cons_of_mem a hb)
      have hne : a.content_hash ≠ ap.content_hash := by
        intro e
        exact heq (huniq a (List.mem_cons_self a rest) e)
      by_cases hsa : a.content_hash ∈ seen
      · rw [if_pos hsa] at h
        exact ih seen outl h hmem2 huniq2 hseen hcache
      · rw [if_neg hsa] at h
        have hseen2 : ap.content_hash ∉ a.content_hash :: seen := by
          intro hx
          rcases List.mem_cons.mp hx with h1 | h1
          · exact hne h1.symm
          · exact hseen h1
        cases hcl : cache.lookup a.content_hash with
        | some url =>
          rw [hcl] at h
          dsimp only at h
          cases hT : dedupLoop env cache rest (a.content_hash :: seen) with
          | error e => rw [hT] at h; exact absurd h (by simp)
          | ok tail =>
            rw [hT] at h
            simp only [Except.ok.injEq] at h
            subst h
            exact List.mem_cons_of_mem _ (ih _ tail hT hmem2 huniq2 hseen2 hcache)
        | none =>
          rw [hcl] at h
          dsimp only at h
          cases hcp : env.compress a.source_path with
          | ok r =>
            rw [hcp] at h
            dsimp only at h
            cases hT : dedupLoop env cache rest (a.content_hash :: seen) with
            | error e => rw [hT] at h; exact absurd h (by simp)
            | ok tail =>
              rw [hT] at h
              simp only [Except.ok.injEq] at h
              subst h
              exact List.mem_cons_of_mem _ (ih _ tail hT hmem2 huniq2 hseen2 hcache)
          | error ce =>
            rw [hcp] at h
            cases ce with
            | critical m =>
              dsimp only at h
              by_cases hprio : a.priority = "critical"
              · rw [if_pos hprio] at h; exact absurd h (by simp)
              · rw [if_neg hprio] at h
                exact ih _ outl h hmem2 huniq2 hseen2 hcache
            | otherExc m =>
              dsimp only at h
              exact ih _ outl h hmem2 huniq2 hseen2 hcache

/-- Every survivor of the deduplication loop is an input asset, extended
either with the cache's URL (cache-hit branch) or with the compressor's
output path after a cache miss (compress branch). -/
lemma dedupLoop_origin (env : BatchEnv) (cache : List (String × String)) :
    ∀ (l : List ImageAsset) (seen : List String) (outl : List ImageAsset),
      dedupLoop env cache l seen = Except.ok outl →
      ∀ b ∈ outl, ∃ a, a ∈ l ∧
        ((∃ u2, cache.lookup a.content_hash = some u2 ∧
            b = { a with cached_url := some u2 }) ∨
         (cache.lookup a.content_hash = none ∧
          ∃ r, env.compress a.source_path = Except.ok r ∧
            b = { a with optimized_path := some r })) := by
  intro l
  induction l with
  | nil =>
    intro seen outl h b hb
    unfold dedupLoop at h
    simp only [Except.ok.injEq] at h
    subst h
    simp at hb
  | cons a rest ih =>
    intro seen outl h b hb
    unfold dedupLoop at h
    dsimp only at h
    by_cases hsa : a.content_hash ∈ seen
    · rw [if_pos hsa] at h
      obtain ⟨a2, ha2, hor⟩ := ih _ outl h b hb
      exact ⟨a2, List.mem_cons_of_mem a ha2, hor⟩
    · rw [if_neg hsa] at h
      cases hcl : cache.lookup a.content_hash with
      | some url =>
        rw [hcl] at h
        dsimp only at h
        cases hT : dedupLoop env cache rest (a.content_hash :: seen) with
        | error e => rw [hT] at h; exact absurd h (by simp)
        | ok tail =>
          rw [hT] at h
          simp only [Except.ok.injEq] at h
          subst h
          rcases List.mem_cons.mp hb with h1 | h1
          · exact ⟨a, List.mem_cons_self a rest, Or.inl ⟨url, hcl, h1⟩⟩
          · obtain ⟨a2, ha2, hor⟩ := ih _ tail hT b h1
            exact ⟨a2, List.mem_cons_of_mem a ha2, hor⟩
      | none =>
        rw [hcl] at h
        dsimp only at h
        cases hcp : env.compress a.source_path with
        | ok r =>
          rw [hcp] at h
          dsimp only at h
          cases hT : dedupLoop env cache rest (a.content_hash :: seen) with
          | error e => rw [hT] at h; exact absurd h (by simp)
          | ok tail =>
            rw [hT] at h
            simp only [Except.ok.injEq] at h
            subst h
            rcases List.mem_cons.mp hb with h1 | h1
            · exact ⟨a, List.mem_cons_self a rest, Or.inr ⟨hcl, r, hcp, h1⟩⟩
            · obtain ⟨a2, ha2, hor⟩ := ih _ tail hT b h1
              exact ⟨a2, List.mem_cons_of_mem a ha2, hor⟩
        | error ce =>
          rw [hcp] at h
          cases ce with
          | critical m =>
            dsimp only at h
            by_cases hprio : a.priority = "critical"
            · rw [if_pos hprio] at h; exact absurd h (by simp)
            · rw [if_neg hprio] at h
              obtain ⟨a2, ha2, hor⟩ := ih _ outl h b hb
              exact ⟨a2, List.mem_cons_of_mem a ha2, hor⟩
          | otherExc m =>
            dsimp only at h
            obtain ⟨a2, ha2, hor⟩ := ih _ outl h b hb
            exact ⟨a2, List.mem_cons_of_mem a ha2, hor⟩

/-- Every upload call logged by the retry loop targets its asset's image
path. -/
lemma retryGo_calls_src (env : BatchEnv) (mr : Nat) (a : ImageAsset) :
    ∀ (fuel attempt : Nat) (st : UpState) (c : String),
      c ∈ (retryGo env mr a attempt st fuel).2.calls →
      c ∈ st.calls ∨ c = a.optimized_path.getD a.source_path := by
  intro fuel
  induction fuel with
  | zero => intro attempt st c hc; simp [retryGo] at hc; exact Or.inl hc
  | succ n ih =>
    intro attempt st c hc
    unfold retryGo at hc
    dsimp only at hc
    split at hc
    · split at hc
      · exact ih (attempt + 1)
          { cache := st.cache, calls := st.calls, sleeps := st.sleeps ++ [2 ^ attempt] } c hc
      · exact Or.inl hc
    · split at hc
      · rcases List.mem_append.mp hc with h1 | h1
        · exact Or.inl h1
        · exact Or.inr (List.mem_singleton.mp h1)
      · split at hc
        · rcases ih (attempt + 1)
            { cache := st.cache, calls := st.calls ++ [a.optimized_path.getD a.source_path],
              sleeps := st.sleeps ++ [2 ^ attempt] } c hc with h1 | h1
          · rcases List.mem_append.mp h1 with h2 | h2
            · exact Or.inl h2
            · exact Or.inr (List.mem_singleton.mp h2)
          · exact Or.inr h1
        · rcases List.mem_append.mp hc with h1 | h1
          · exact Or.inl h1
          · exact Or.inr (List.mem_singleton.mp h1)

/-- Every upload call logged by the upload fold targets the image path of
one of the dispatched assets. -/
lemma uploadFold_calls_src (env : BatchEnv) (mr : Nat) :
    ∀ (l : List ImageAsset) (st : UpState) (c : String),
      c ∈ (uploadFold env mr l st).2.calls →
      c ∈ st.calls ∨ ∃ b, b ∈ l ∧ c = b.optimized_path.getD b.source_path := by
  intro l
  induction l with
  | nil => intro st c hc; exact Or.inl hc
  | cons a rest ih =>
    intro st c hc
    unfold uploadFold at hc
    dsimp only at hc
    have hrec : c ∈ (uploadFold env mr rest (_upload_with_retry env mr a st).2).2.calls := by
      rcases hm : (_upload_with_retry env mr a st).1 with _ | r0 <;> rw [hm] at hc <;> exact hc
    rcases ih _ c hrec with h1 | ⟨b, hb, he⟩
    · rcases retryGo_calls_src env mr a mr 0 st c h1 with h2 | h2
      · exact Or.inl h2
      · exact Or.inr ⟨a, List.mem_cons_self a rest, h2⟩
    · exact Or.inr ⟨b, List.mem_cons_of_mem a hb, he⟩

/-- A cached asset in the optimized list yields its immediate
from-cache success result in the batch output. -/
lemma batch_cached_mem (env : BatchEnv) (mr : Nat) (l : List ImageAsset) (st : UpState)
    (b : ImageAsset) (u : String) (hb : b ∈ l) (hc : b.cached_url = some u) :
    (⟨b, some u, true, none, true, false, 0⟩ : UploadResult) ∈
      (_batch_upload_with_progress env mr l st).1 := by
  unfold _batch_upload_with_progress
  dsimp only
  apply List.mem_append_left
  apply List.mem_map.mpr
  refine ⟨b, List.mem_filter.mpr ⟨hb, by simp [hc]⟩, ?_⟩
  rw [hc]

/-- Upload calls of the batch phase come only from non-cached assets. -/
lemma batch_calls_src (env : BatchEnv) (mr : Nat) (l : List ImageAsset) (st : UpState)
    (c : String) (hc : c ∈ (_batch_upload_with_progress env mr l st).2.calls) :
    c ∈ st.calls ∨ ∃ b, b ∈ l ∧ b.cached_url = none ∧
      c = b.optimized_path.getD b.source_path := by
  unfold _batch_upload_with_progress at hc
  dsimp only at hc
  rcases uploadFold_calls_src env mr _ st c hc with h1 | ⟨b, hb, he⟩
  · exact Or.inl h1
  · have hbl := List.mem_filter.mp hb
    refine Or.inr ⟨b, hbl.1, ?_, he⟩
    have := hbl.2
    simp at this
    exact Option.not_isSome_iff_eq_none.mp (by simpa using this)

/-- C6, counterexample.  The claim quantifies over every asset whose hash
is cached at the start of the run.  For two input descriptors with
different paths but the same cached content hash, only the deduplicated
representative gets an outcome: the run yields a single result, none of
whose entries is for "b.jpg", and exactly one cached hit — so the asset
"b.jpg" has no outcome at all, contradicting "its outcome reports
success with fromCache = true". -/
theorem C6_counterexample_duplicate_cached_no_outcome :
    (process_newsletter_images
        { exists_ := fun _ => true,
          hash := fun p => if p = "a.jpg" ∨ p = "b.jpg" then "h1" else "h2",
          size := fun _ => 1000, compress := fun p => Except.ok p,
          upload := fun _ _ => Except.ok "NEWURL" }
        3 ["a.jpg", "b.jpg"] [] [] [] [("h1", "CURL")]).map
      (fun out => (out.results.length,
        (out.results.filter (fun r => r.image_asset.source_path = "b.jpg")).length,
        out.summary.cached_hits, out.state.calls)) = Except.ok (1, 0, 1, []) := by
  rfl

/-- C6, amended.  For every input path that exists, whose content hash has
a cache entry at the start of the run, and which is the only input path
with that hash (the compressor returning its argument path, as
ensure_under_1mb does), process makes no network upload call for that
path and its outcome — present in the result list — reports success with
from_cache = true and the cached hosted URL.  When several descriptors
share the cached hash, only the deduplicated representative receives that
outcome; the counterexample shows the other duplicates get none. -/
theorem C6_cache_hit_short_circuit (env : BatchEnv) (mr : Nat) (paths : List String)
    (cx pr rm cache0 : List (String × String)) (out : ProcOut) (p u : String)
    (h : process_newsletter_images env mr paths cx pr rm cache0 = Except.ok out)
    (hp : p ∈ paths) (hex : env.exists_ p = true)
    (hcache : cache0.lookup (env.hash p) = some u)
    (huniq : ∀ q ∈ paths, env.hash q = env.hash p → q = p)
    (hcompid : ∀ q r, env.compress q = Except.ok r → r = q) :
    (⟨{ mkAsset env cx pr rm p with cached_url := some u }, some u, true, none, true, false,
      0⟩ : UploadResult) ∈ out.results ∧ p ∉ out.state.calls := by
  have hapmem : mkAsset env cx pr rm p ∈ mkAssets env cx pr rm paths :=
    mkAssets_mem env cx pr rm p paths hp hex
  unfold process_newsletter_images at h
  by_cases he : (mkAssets env cx pr rm paths).isEmpty
  · exfalso
    rw [List.isEmpty_iff] at he
    rw [he] at hapmem
    simp at hapmem
  · rw [if_neg he] at h
    cases hD : _optimize_and_deduplicate env cache0 (mkAssets env cx pr rm paths) with
    | error e => rw [hD] at h; exact absurd h (by simp)
    | ok opt =>
      rw [hD] at h
      dsimp only at h
      simp only [Except.ok.injEq] at h
      subst h
      unfold _optimize_and_deduplicate at hD
      have hsmem : mkAsset env cx pr rm p ∈
          stableSortByKey (fun a => priorityOrder a.priority) (mkAssets env cx pr rm paths) :=
        (stableSortByKey_mem _ _ _).mpr hapmem
      have hsuniq : ∀ b ∈ stableSortByKey (fun a => priorityOrder a.priority)
          (mkAssets env cx pr rm paths),
          b.content_hash = (mkAsset env cx pr rm p).content_hash →
          b = mkAsset env cx pr rm p := by
        intro b hb hbh
        obtain ⟨q, hq, hqex, rfl⟩ :=
          mkAssets_src env cx pr rm b _ ((stableSortByKey_mem _ _ _).mp hb)
        rw [huniq q hq hbh]
      have hopt : { mkAsset env cx pr rm p with cached_url := some u } ∈ opt :=
        dedupLoop_cache_hit_mem env cache0 _ u _ [] opt hD hsmem hsuniq (by simp) hcache
      constructor
      · exact batch_cached_mem env mr opt { cache := cache0 } _ u hopt rfl
      · intro hpc
        rcases batch_calls_src env mr opt { cache := cache0 } p hpc with
          h1 | ⟨b, hb, hbnone, hbp⟩
        · simp at h1
        · obtain ⟨a2, ha2, hor⟩ := dedupLoop_origin env cache0 _ [] opt hD b hb
          rcases hor with ⟨u2, _, rfl⟩ | ⟨hnone, r, hcp, rfl⟩
          · simp at hbnone
          · have hr : r = a2.source_path := hcompid _ _ hcp
            have hpi : p = a2.source_path := by
              rw [hbp]
              simp [hr]
            obtain ⟨q, hq, hqex, rfl⟩ :=
              mkAssets_src env cx pr rm a2 _ ((stableSortByKey_mem _ _ _).mp ha2)
            have hqp : q = p := by
              have hsp : (mkAsset env cx pr rm q).source_path = q := rfl
              rw [hsp] at hpi
              exact hpi.symm
            subst hqp
            have hch : (mkAsset env cx pr rm q).content_hash = env.hash q := rfl
            rw [hch] at hnone
            rw [hcache] at hnone
            exact absurd hnone (by simp)

/-- Witness for C6's amended theorem at a concrete input: a single cached
asset comes back from the cache with no network call. -/
theorem C6_cache_hit_short_circuit_witness :
    (⟨{ mkAsset
          { exists_ := fun _ => true, hash := fun _ => "sh", size := fun _ => 3,
            compress := fun p => Except.ok p, upload := fun _ _ => Except.ok "X" }
          [] [] [] "solo.png" with cached_url := some "CACHED" },
       some "CACHED", true, none, true, false, 0⟩ : UploadResult) ∈
      (⟨{ total_images := 1, successful_uploads := 0, cached_hits := 1, failed_uploads := 0,
          skipped_images := 0, total_size_bytes := 0,
          url_mappings := [("solo.png", "CACHED")], errors := [] },
        [⟨⟨"solo.png", "inline", "normal", "sh", none, none, some "CACHED"⟩, some "CACHED",
          true, none, true, false, 0⟩],
        ⟨[("sh", "CACHED")], [], []⟩⟩ : ProcOut).results ∧
    "solo.png" ∉
      (⟨{ total_images := 1, successful_uploads := 0, cached_hits := 1, failed_uploads := 0,
          skipped_images := 0, total_size_bytes := 0,
          url_mappings := [("solo.png", "CACHED")], errors := [] },
        [⟨⟨"solo.png", "inline", "normal", "sh", none, none, some "CACHED"⟩, some "CACHED",
          true, none, true, false, 0⟩],
        ⟨[("sh", "CACHED")], [], []⟩⟩ : ProcOut).state.calls :=
  C6_cache_hit_short_circuit
    { exists_ := fun _ => true, hash := fun _ => "sh", size := fun _ => 3,
      compress := fun p => Except.ok p, upload := fun _ _ => Except.ok "X" }
    3 ["solo.png"] [] [] [] [("sh", "CACHED")] _ "solo.png" "CACHED" rfl
    (by simp) rfl rfl (by intro q hq _; simpa using hq)
    (by intro q r hr; exact (Except.ok.inj hr).symm)

/-! ## Theorems about the Template Upload Stage -/

/-- A single template upload's result does not depend on the threaded
state (only on the document, its name, and the remote API). -/
lemma single_template_result_state_indep (env : TplEnv) (html : List Char)
    (n : String) (st : TplState) :
    (_upload_single_template env html n st).1 =
      (_upload_single_template env html n {}).1 := by
  unfold _upload_single_template
  rcases hv : _validate_html_content html with ⟨b, msg⟩
  cases b
  · rfl
  · dsimp only
    cases env.upload n with
    | ok tid => cases tid <;> rfl
    | mailchimpError m => rfl
    | otherError m => rfl

/-- A single template upload logs its API call exactly when validation
passes. -/
lemma single_template_calls (env : TplEnv) (html : List Char) (n : String)
    (st : TplState) :
    (_upload_single_template env html n st).2.calls =
      if (_validate_html_content html).1 then st.calls ++ [n] else st.calls := by
  unfold _upload_single_template
  rcases hv : _validate_html_content html with ⟨b, msg⟩
  cases b
  · rfl
  · dsimp only
    cases env.upload n with
    | ok tid => cases tid <;> rfl
    | mailchimpError m => rfl
    | otherError m => rfl

/-- A document failing validation yields the validation-error failed
result and leaves the state (and so the call log) untouched. -/
lemma single_template_invalid (env : TplEnv) (html : List Char) (n : String)
    (st : TplState) (h : (_validate_html_content html).1 = false) :
    _upload_single_template env html n st =
      (⟨n, false, none,
        some ("Validation error: " ++ ((_validate_html_content html).2).getD "None"),
        utf8Len html⟩, st) := by
  unfold _upload_single_template
  rcases hv : _validate_html_content html with ⟨b, msg⟩
  rw [hv] at h
  dsimp at h
  subst h
  rfl

/-- HTML validity is exactly: non-empty after stripping, at most the size
limit, and containing the html and body markers — the expected-host
(mcusercontent.com) check does not participate. -/
lemma validate_iff (html : List Char) :
    (_validate_html_content html).1 = true ↔
      (¬(html = [] ∨ pyStrip html = []) ∧ html.length ≤ 10000000 ∧
       containsSub "<html".toList (pyLower html) = true ∧
       containsSub "<body".toList (pyLower html) = true) := by
  unfold _validate_html_content
  split_ifs with h1 h2 h3 h4 <;> simp_all

/-- The sequential template loop produces one result per document, in
document order, each independent of accumulated state. -/
lemma tplLoop_results (env : TplEnv) :
    ∀ (ds : List TplDoc) (i : Nat) (results : List TemplateUploadResult)
      (ids : List (String × String)) (errs : List String) (st : TplState),
      (tplLoop env ds i results ids errs st).1 =
        results ++ (ds.enumFrom i).map (fun q =>
          (_upload_single_template env q.2.html
            (_generate_template_name q.2.country q.2.language_code q.2.locale
              (env.timestamp q.1)) {}).1) := by
  intro ds
  induction ds with
  | nil => intro i results ids errs st; simp [tplLoop, List.enumFrom]
  | cons d rest ih =>
    intro i results ids errs st
    unfold tplLoop
    dsimp only
    split
    · rw [ih]
      rw [single_template_result_state_indep]
      simp [List.enumFrom, List.append_assoc]
    · rw [ih]
      rw [single_template_result_state_indep]
      simp [List.enumFrom, List.append_assoc]

/-- The template loop calls the remote API exactly for the documents that
pass validation, in document order. -/
lemma tplLoop_calls (env : TplEnv) :
    ∀ (ds : List TplDoc) (i : Nat) (results : List TemplateUploadResult)
      (ids : List (String × String)) (errs : List String) (st : TplState),
      (tplLoop env ds i results ids errs st).2.2.2.calls =
        st.calls ++
          ((ds.enumFrom i).filter (fun q => (_validate_html_content q.2.html).1)).map
            (fun q => _generate_template_name q.2.country q.2.language_code q.2.locale
              (env.timestamp q.1)) := by
  intro ds
  induction ds with
  | nil => intro i results ids errs st; simp [tplLoop, List.enumFrom]
  | cons d rest ih =>
    intro i results ids errs st
    unfold tplLoop
    dsimp only
    by_cases hv : (_validate_html_content d.html).1 = true
    · split
      · rw [ih]
        rw [single_template_calls]
        rw [if_pos hv]
        simp [List.enumFrom, List.filter_cons, hv, List.append_assoc]
      · rw [ih]
        rw [single_template_calls]
        rw [if_pos hv]
        simp [List.enumFrom, List.filter_cons, hv, List.append_assoc]
    · have hv2 : (_validate_html_content d.html).1 = false := by
        cases hb : (_validate_html_content d.html).1
        · rfl
        · exact absurd hb hv
      split
      · rw [ih]
        rw [single_template_calls]
        rw [if_neg (by rw [hv2]; simp)]
        simp [List.enumFrom, List.filter_cons, hv2]
      · rw [ih]
        rw [single_template_calls]
        rw [if_neg (by rw [hv2]; simp)]
        simp [List.enumFrom, List.filter_cons, hv2]

/-- C9, confirmed.  The Template Upload Stage processes documents
sequentially in input order: the result list maps the indexed input
documents one-to-one in order (conjunct 1, each result independent of
the others — earlier failures never block later documents), the remote
API is called exactly for the documents passing validation, in order
(conjunct 2), there is one outcome per document (conjunct 3), a document
failing validation (empty, over the 10 MB maximum, or missing the
<html>/<body> markers) is recorded as a failed result carrying a
"Validation error" message with no state change and hence no remote call
(conjunct 4), and validity depends only on non-emptiness, the size
limit, and the <html>/<body> markers — a missing mcusercontent.com host
marker can never fail a document (conjunct 5). -/
theorem C9_template_stage_order_and_validation (env : TplEnv)
    (templates : List TplDoc) (st0 : TplState) :
    ((upload_templates_for_newsletter env templates st0).1).upload_results =
      templates.enum.map (fun q =>
        (_upload_single_template env q.2.html
          (_generate_template_name q.2.country q.2.language_code q.2.locale
            (env.timestamp q.1)) {}).1) ∧
    ((upload_templates_for_newsletter env templates st0).2).calls =
      st0.calls ++
        (templates.enum.filter (fun q => (_validate_html_content q.2.html).1)).map
          (fun q => _generate_template_name q.2.country q.2.language_code q.2.locale
            (env.timestamp q.1)) ∧
    ((upload_templates_for_newsletter env templates st0).1).upload_results.length =
      templates.length ∧
    (∀ (html : List Char) (n : String) (st : TplState),
      (_validate_html_content html).1 = false →
      _upload_single_template env html n st =
        (⟨n, false, none,
          some ("Validation error: " ++ ((_validate_html_content html).2).getD "None"),
          utf8Len html⟩, st)) ∧
    (∀ html : List Char, (_validate_html_content html).1 = true ↔
      (¬(html = [] ∨ pyStrip html = []) ∧ html.length ≤ 10000000 ∧
       containsSub "<html".toList (pyLower html) = true ∧
       containsSub "<body".toList (pyLower html) = true)) := by
  refine ⟨?_, ?_, ?_, fun html n st h => single_template_invalid env html n st h,
    fun html => validate_iff html⟩
  · unfold upload_templates_for_newsletter
    by_cases he : templates.isEmpty
    · rw [if_pos he]
      rw [List.isEmpty_iff] at he
      subst he
      simp [List.enum]
    · rw [if_neg he]
      dsimp only
      rw [tplLoop_results]
      simp [List.enum]
  · unfold upload_templates_for_newsletter
    by_cases he : templates.isEmpty
    · rw [if_pos he]
      rw [List.isEmpty_iff] at he
      subst he
      simp [List.enum]
    · rw [if_neg he]
      dsimp only
      rw [tplLoop_calls]
      simp [List.enum]
  · unfold upload_templates_for_newsletter
    by_cases he : templates.isEmpty
    · rw [if_pos he]
      rw [List.isEmpty_iff] at he
      subst he
      rfl
    · rw [if_neg he]
      dsimp only
      rw [tplLoop_results]
      simp [List.enum]

/-- Witness for C9 at a concrete input: an empty document is recorded as a
validation failure with the state untouched (no remote call). -/
theorem C9_template_stage_order_and_validation_witness :
    _upload_single_template
        { upload := fun _ => TplResponse.ok (some "tid1"),
          timestamp := fun i => "T" ++ toString i }
        "".toList "X_en_en-US_T0" ⟨[], []⟩ =
      (⟨"X_en_en-US_T0", false, none,
        some "Validation error: HTML content is empty", 0⟩, ⟨[], []⟩) :=
  (C9_template_stage_order_and_validation
    { upload := fun _ => TplResponse.ok (some "tid1"),
      timestamp := fun i => "T" ++ toString i }
    [⟨"".toList, "X", "en", "en-US"⟩] ⟨[], []⟩).2.2.2.1
    "".toList "X_en_en-US_T0" ⟨[], []⟩ rfl

end HRF
